import Mathlib

set_option autoImplicit false
set_option maxHeartbeats 2000000

/-
Shallow embedding of the chained hash table in src/hashmap.c and
src/hashmap.h. C strings are modelled as byte lists, opaque value pointers as
natural numbers (pointer identity), NULL pointers as none, and memory left
indeterminate by realloc as none slots. Every operation returns an OpResult
whose outer none marks undefined behavior (NULL dereference, read of an
indeterminate slot pointer, strcmp or strdup applied to a NULL key, or a
modulo by zero); the translation follows the source statement by statement.
-/

namespace Bindgen

/-- Bytes of a C string key; strcmp equality on keys is list equality. -/
abbrev Key := List Nat

/-- Entry in the HashMap that acts as a node in a linked list (struct Entry in
src/hashmap.h); the next pointer is represented by the enclosing list. -/
structure Entry where
  key : Key
  value : Nat
deriving DecidableEq, Repr

/-- One bucket slot: none models an indeterminate pointer left by realloc,
some c models a valid chain whose NULL-terminated node sequence is c. -/
abbrev Slot := Option (List Entry)

abbrev Slots := List Slot

/-- HashMap from src/hashmap.h. The key field is the 16 byte secret; the
entries field is none when the entries pointer is NULL. -/
structure HashMap where
  len : Nat
  buckets : Nat
  key : List Nat
  entries : Option Slots
deriving DecidableEq, Repr

/-- Modelled from the spec: the SipHash-2-4 implementation is included from
src/siphash/siphash.h, which is not part of this repository. Per section 4.1
of the spec it is a deterministic keyed pseudorandom function of the secret
and the key bytes producing an 8 byte digest; it is modelled as a fixed
executable mixing function with exactly that signature. -/
def siphash (msg : List Nat) (secret : List Nat) (outlen : Nat) : List Nat :=
  let seed := secret.foldl (fun a b => (a * 131 + b + 1) % 18446744073709551616) 99
  let h := msg.foldl (fun a b => (a * 257 + b + 1) % 18446744073709551616) seed
  (List.range outlen).map (fun i => h / 256 ^ i % 256)

/-- Translation of hashmap_hash_key in src/hashmap.c. The callers initialize
the output to 0 and the function returns without writing when the key is NULL,
so a NULL key yields hash 0; the loop assembles the 8 output bytes little
endian. The map pointer is non NULL at every call site of the model. -/
def hashmap_hash_key (map : HashMap) (key : Option Key) : Nat :=
  match key with
  | none => 0
  | some k =>
    let hash_bytes := siphash k map.key 8
    (List.range 8).foldl (fun h i => h ||| hash_bytes.getD i 0 <<< (i * 8)) 0

/-- Model of realloc on the bucket array: a NULL pointer behaves as an empty
array, old cells are preserved, and additional cells hold indeterminate
values. Allocation is modelled as succeeding. -/
def reallocSlots (old : Option Slots) (n : Nat) : Slots :=
  old.getD [] ++ List.replicate (n - (old.getD []).length) (none : Slot)

/-- The initialization loop of hashmap_grow, writing a NULL chain head (the
empty chain) into count consecutive cells starting at index i. -/
def initSlots : Slots → Nat → Nat → Slots
  | slots, _, 0 => slots
  | slots, i, c + 1 => initSlots (slots.set i (some [])) (i + 1) c

/-- Translation of hashmap_grow in src/hashmap.c, keeping the source order:
map.buckets is assigned new_buckets first, then the array is reallocated, and
only then does the loop for i from map.buckets (already new_buckets) up to
new_buckets run, i.e. for new_buckets minus map.buckets iterations. The NULL
map guard is handled at the call site. -/
def hashmap_grow (map : HashMap) (new_buckets : Nat) : HashMap :=
  if map.buckets ≥ new_buckets then map
  else
    let map1 := { map with buckets := new_buckets }
    let slots := reallocSlots map1.entries new_buckets
    { map1 with entries := some (initSlots slots map1.buckets (new_buckets - map1.buckets)) }

/-- Translation of hashmap_grow_if_needed in src/hashmap.c for a non NULL map
(the NULL check is absorbed by the callers of the model). -/
def hashmap_grow_if_needed (map : HashMap) : HashMap :=
  if map.buckets = 0 then hashmap_grow map 8
  else if map.len * 4 ≥ map.buckets * 3 then hashmap_grow map (map.buckets * 2)
  else map

/-- Translation of hashmap_new in src/hashmap.c. The 16 secret bytes drawn
from rand are passed as a parameter to make the randomness explicit;
allocation is modelled as succeeding. -/
def hashmap_new (secret : List Nat) : HashMap :=
  { len := 0, buckets := 0, key := secret, entries := none }

/-- Translation of hashmap_with_buckets in src/hashmap.c: calloc returns
zeroed cells, so every slot is a NULL chain head, i.e. an initialized empty
chain, and the subsequent loop rewrites the same NULL values. -/
def hashmap_with_buckets (buckets : Nat) (secret : List Nat) : HashMap :=
  let map := hashmap_new secret
  { map with buckets := buckets,
             entries := some (List.replicate buckets (some ([] : List Entry))) }

/-- Translation of hashmap_len in src/hashmap.h. -/
def hashmap_len (map : HashMap) : Nat := map.len

/-- The while loop of hashmap_insert: overwrite the value of the first node
whose key matches and return the old value, or append a fresh node (calloc
plus strdup of the key) at the tail of the chain. -/
def chainInsert : List Entry → Key → Nat → Option Nat × List Entry
  | [], k, v => (none, [{ key := k, value := v }])
  | e :: rest, k, v =>
    if e.key = k then (some e.value, { e with value := v } :: rest)
    else
      let p := chainInsert rest k v
      (p.1, e :: p.2)

/-- The while loop of hashmap_get: value of the first node whose key matches,
or none when the chain has no such node. -/
def chainFind : List Entry → Key → Option Nat
  | [], _ => none
  | e :: rest, k => if e.key = k then some e.value else chainFind rest k

/-- The while loop of hashmap_remove: unlink the first node whose key matches
and return its value together with the remaining chain. -/
def chainRemove : List Entry → Key → Option (Nat × List Entry)
  | [], _ => none
  | e :: rest, k =>
    if e.key = k then some (e.value, rest)
    else
      match chainRemove rest k with
      | none => none
      | some p => some (p.1, e :: p.2)

/-- Result of one table operation: the outer none models undefined behavior;
some (r, t) is the C return value (none for a NULL return) paired with the
table handle afterwards. -/
abbrev OpResult := Option (Option Nat × Option HashMap)

/-- Body of hashmap_insert after the growth check, for a non NULL map: the
early NULL entries return, the bucket selection by digest modulo buckets, and
the chain walk. Reading an indeterminate slot pointer, indexing outside the
allocation, a modulo by zero, and strcmp or strdup on a NULL key are all
undefined behavior. -/
def insertCore (m : HashMap) (key : Option Key) (value : Nat) : OpResult :=
  match m.entries with
  | none => some (none, some m)
  | some slots =>
    if m.buckets = 0 then none
    else
      let b := hashmap_hash_key m key % m.buckets
      match slots[b]?, key with
      | none, _ => none
      | some none, _ => none
      | some (some _), none => none
      | some (some chain), some k =>
        let p := chainInsert chain k value
        some (p.1, some { m with entries := some (slots.set b (some p.2)) })

/-- Translation of hashmap_insert in src/hashmap.c. For a NULL map the call to
hashmap_grow_if_needed returns immediately and the subsequent read of
map.entries dereferences the NULL map pointer: undefined behavior. -/
def hashmap_insert (map : Option HashMap) (key : Option Key) (value : Nat) : OpResult :=
  match map with
  | none => none
  | some m => insertCore (hashmap_grow_if_needed m) key value

/-- Translation of hashmap_get in src/hashmap.c. The map is const and no
branch writes to the table; a NULL key leaves the hash at 0, and walking a non
empty chain with a NULL key runs strcmp on NULL: undefined behavior. -/
def hashmap_get (map : Option HashMap) (key : Option Key) : OpResult :=
  match map with
  | none => some (none, none)
  | some m =>
    match m.entries with
    | none => some (none, some m)
    | some slots =>
      if m.buckets = 0 then none
      else
        let b := hashmap_hash_key m key % m.buckets
        match slots[b]?, key with
        | none, _ => none
        | some none, _ => none
        | some (some chain), none => if chain.isEmpty then some (none, some m) else none
        | some (some chain), some k => some (chainFind chain k, some m)

/-- Translation of hashmap_remove in src/hashmap.c: like get, but the first
matching node is unlinked and freed and its value returned. -/
def hashmap_remove (map : Option HashMap) (key : Option Key) : OpResult :=
  match map with
  | none => some (none, none)
  | some m =>
    match m.entries with
    | none => some (none, some m)
    | some slots =>
      if m.buckets = 0 then none
      else
        let b := hashmap_hash_key m key % m.buckets
        match slots[b]?, key with
        | none, _ => none
        | some none, _ => none
        | some (some chain), none => if chain.isEmpty then some (none, some m) else none
        | some (some chain), some k =>
          match chainRemove chain k with
          | none => some (none, some m)
          | some p => some (some p.1, some { m with entries := some (slots.set b (some p.2)) })

/-- Representation invariant: the allocated bucket array (empty when the
entries pointer is NULL) has exactly buckets cells. It holds for every table
the construction functions return and is preserved by the operations. -/
def WFlen (m : HashMap) : Prop := (m.entries.getD []).length = m.buckets

/-- Keys of one slot; an indeterminate slot is never a readable chain and
contributes nothing. -/
def slotKeys (s : Slot) : List Key := (s.getD []).map Entry.key

/-- Representation invariant: within each chain no key occurs twice (spec 4.3,
duplicate keys are never represented as multiple chain nodes). -/
def WFnodup (m : HashMap) : Prop := ∀ s ∈ m.entries.getD [], (slotKeys s).Nodup

/-- Conjunction of the two representation invariants of API built tables. -/
def WF (m : HashMap) : Prop := WFlen m ∧ WFnodup m

/-- All keys stored in a bucket array, in slot order. -/
def slotsKeys (slots : Slots) : List Key := slots.foldr (fun s acc => slotKeys s ++ acc) []

/-- All keys stored in the table. -/
def allKeys (m : HashMap) : List Key := slotsKeys (m.entries.getD [])

/-- Number of live entries across all chains of the table. -/
def totalEntries (m : HashMap) : Nat :=
  (m.entries.getD []).foldr (fun s acc => (s.getD []).length + acc) 0

/-- The operation result is defined (no undefined behavior) and satisfies P. -/
def opEnsures (res : OpResult) (P : Option Nat → Option HashMap → Prop) : Prop :=
  match res with
  | none => False
  | some p => P p.1 p.2

/-- One public operation together with its arguments. -/
inductive Op where
  | ins : Option Key → Nat → Op
  | del : Option Key → Op
  | query : Option Key → Op
deriving DecidableEq, Repr

/-- Big step execution of a sequence of operations: Run s ops t holds when
running ops from table handle s is free of undefined behavior and ends at
handle t. -/
inductive Run : Option HashMap → List Op → Option HashMap → Prop where
  | done (s : Option HashMap) : Run s [] s
  | ins {s s1 s2 : Option HashMap} {k : Option Key} {v : Nat} {r : Option Nat}
      {ops : List Op} :
      hashmap_insert s k v = some (r, s1) → Run s1 ops s2 →
      Run s (Op.ins k v :: ops) s2
  | del {s s1 s2 : Option HashMap} {k : Option Key} {r : Option Nat}
      {ops : List Op} :
      hashmap_remove s k = some (r, s1) → Run s1 ops s2 →
      Run s (Op.del k :: ops) s2
  | query {s s1 s2 : Option HashMap} {k : Option Key} {r : Option Nat}
      {ops : List Op} :
      hashmap_get s k = some (r, s1) → Run s1 ops s2 →
      Run s (Op.query k :: ops) s2

/-! Chain level lemmas: the three while loop walks over one bucket chain. -/

theorem chainFind_chainInsert (c : List Entry) (k : Key) (v : Nat) :
    chainFind (chainInsert c k v).2 k = some v := by
  induction c with
  | nil => simp [chainInsert, chainFind]
  | cons e rest ih =>
    by_cases hek : e.key = k
    · simp [chainInsert, chainFind, hek]
    · simp [chainInsert, chainFind, hek, ih]

theorem chainInsert_fst (c : List Entry) (k : Key) (v : Nat) :
    (chainInsert c k v).1 = chainFind c k := by
  induction c with
  | nil => simp [chainInsert, chainFind]
  | cons e rest ih =>
    by_cases hek : e.key = k
    · simp [chainInsert, chainFind, hek]
    · simp [chainInsert, chainFind, hek, ih]

theorem chainFind_eq_none_iff (c : List Entry) (k : Key) :
    chainFind c k = none ↔ k ∉ c.map Entry.key := by
  induction c with
  | nil => simp [chainFind]
  | cons e rest ih =>
    by_cases hek : e.key = k
    · simp [chainFind, hek]
    · simp [chainFind, hek, ih, Ne.symm hek]

theorem chainInsert_keys_of_found (c : List Entry) (k : Key) (v w : Nat)
    (h : chainFind c k = some w) :
    (chainInsert c k v).2.map Entry.key = c.map Entry.key := by
  induction c with
  | nil => simp [chainFind] at h
  | cons e rest ih =>
    by_cases hek : e.key = k
    · simp [chainInsert, hek]
    · simp only [chainFind, hek, if_false] at h
      simp [chainInsert, hek, ih h]

theorem chainInsert_keys_of_none (c : List Entry) (k : Key) (v : Nat)
    (h : chainFind c k = none) :
    (chainInsert c k v).2.map Entry.key = c.map Entry.key ++ [k] := by
  induction c with
  | nil => simp [chainInsert]
  | cons e rest ih =>
    by_cases hek : e.key = k
    · simp [chainFind, hek] at h
    · simp only [chainFind, hek, if_false] at h
      simp [chainInsert, hek, ih h]

theorem nodup_chainInsert (c : List Entry) (k : Key) (v : Nat)
    (h : (c.map Entry.key).Nodup) :
    ((chainInsert c k v).2.map Entry.key).Nodup := by
  rcases hf : chainFind c k with _ | w
  · rw [chainInsert_keys_of_none c k v hf]
    have hk : k ∉ c.map Entry.key := (chainFind_eq_none_iff c k).mp hf
    simp [List.nodup_append, h, hk]
  · rw [chainInsert_keys_of_found c k v w hf]
    exact h

theorem chainRemove_eq_none (c : List Entry) (k : Key)
    (h : chainFind c k = none) : chainRemove c k = none := by
  induction c with
  | nil => simp [chainRemove]
  | cons e rest ih =>
    by_cases hek : e.key = k
    · simp [chainFind, hek] at h
    · simp only [chainFind, hek, if_false] at h
      simp [chainRemove, hek, ih h]

theorem chainRemove_of_find (c : List Entry) (k : Key) (v : Nat)
    (h : chainFind c k = some v) :
    ∃ c2, chainRemove c k = some (v, c2) ∧
      c2.map Entry.key ⊆ c.map Entry.key ∧
      ((c.map Entry.key).Nodup → chainFind c2 k = none) := by
  induction c with
  | nil => simp [chainFind] at h
  | cons e rest ih =>
    by_cases hek : e.key = k
    · refine ⟨rest, ?_, ?_, ?_⟩
      · simp only [chainFind, hek, if_true] at h
        simp [chainRemove, hek, Option.some.inj h]
      · simp [List.subset_cons_self]
      · intro hnd
        simp only [List.map_cons, List.nodup_cons, hek] at hnd
        exact (chainFind_eq_none_iff rest k).mpr hnd.1
    · simp only [chainFind, hek, if_false] at h
      obtain ⟨c2, hrem, hsub, hfind⟩ := ih h
      refine ⟨e :: c2, ?_, ?_, ?_⟩
      · simp [chainRemove, hek, hrem]
      · simpa using List.cons_subset_cons e.key hsub
      · intro hnd
        simp only [List.map_cons, List.nodup_cons] at hnd
        simp [chainFind, hek, hfind hnd.2]

/-! Bucket array level lemmas. -/

theorem slotsKeys_nil : slotsKeys [] = [] := rfl

theorem slotsKeys_cons (s : Slot) (rest : Slots) :
    slotsKeys (s :: rest) = slotKeys s ++ slotsKeys rest := rfl

theorem slotsKeys_append (l1 l2 : Slots) :
    slotsKeys (l1 ++ l2) = slotsKeys l1 ++ slotsKeys l2 := by
  induction l1 with
  | nil => simp [slotsKeys_nil]
  | cons s rest ih => simp [slotsKeys_cons, ih]

theorem slotsKeys_replicate_none (n : Nat) :
    slotsKeys (List.replicate n (none : Slot)) = [] := by
  induction n with
  | zero => rfl
  | succ n ih => simp [List.replicate_succ, slotsKeys_cons, ih, slotKeys]

theorem slotsKeys_set_of_same (slots : Slots) (b : Nat) (s0 s1 : Slot)
    (hb : slots[b]? = some s0) (hk : slotKeys s1 = slotKeys s0) :
    slotsKeys (slots.set b s1) = slotsKeys slots := by
  induction slots generalizing b with
  | nil => simp at hb
  | cons s rest ih =>
    cases b with
    | zero =>
      simp only [List.getElem?_cons_zero, Option.some.injEq] at hb
      subst hb
      simp [List.set, slotsKeys_cons, hk]
    | succ b =>
      simp only [List.getElem?_cons_succ] at hb
      simp [List.set, slotsKeys_cons, ih b hb]

/-! Growth lemmas. -/

theorem hashmap_grow_eq (m : HashMap) (n : Nat) (h : ¬ m.buckets ≥ n) :
    hashmap_grow m n =
      { m with buckets := n,
               entries := some (m.entries.getD [] ++
                 List.replicate (n - (m.entries.getD []).length) (none : Slot)) } := by
  simp [hashmap_grow, h, reallocSlots, Nat.sub_self, initSlots]

theorem hashmap_grow_len (m : HashMap) (n : Nat) : (hashmap_grow m n).len = m.len := by
  unfold hashmap_grow
  split <;> rfl

theorem hashmap_grow_key (m : HashMap) (n : Nat) : (hashmap_grow m n).key = m.key := by
  unfold hashmap_grow
  split <;> rfl

theorem hashmap_grow_buckets_le (m : HashMap) (n : Nat) :
    m.buckets ≤ (hashmap_grow m n).buckets := by
  unfold hashmap_grow
  split
  · exact Nat.le_refl _
  · simp only []
    omega

theorem hashmap_grow_if_needed_len (m : HashMap) :
    (hashmap_grow_if_needed m).len = m.len := by
  unfold hashmap_grow_if_needed
  split
  · exact hashmap_grow_len m 8
  · split
    · exact hashmap_grow_len m _
    · rfl

theorem hashmap_grow_if_needed_key (m : HashMap) :
    (hashmap_grow_if_needed m).key = m.key := by
  unfold hashmap_grow_if_needed
  split
  · exact hashmap_grow_key m 8
  · split
    · exact hashmap_grow_key m _
    · rfl

theorem hashmap_grow_if_needed_buckets_le (m : HashMap) :
    m.buckets ≤ (hashmap_grow_if_needed m).buckets := by
  unfold hashmap_grow_if_needed
  split
  · exact hashmap_grow_buckets_le m 8
  · split
    · exact hashmap_grow_buckets_le m _
    · exact Nat.le_refl _

theorem hashmap_grow_if_needed_buckets_pos (m : HashMap) :
    0 < (hashmap_grow_if_needed m).buckets := by
  unfold hashmap_grow_if_needed
  split
  · rename_i h0
    rw [hashmap_grow_eq m 8 (by omega)]
    exact Nat.succ_pos 7
  · rename_i h0
    split
    · have := hashmap_grow_buckets_le m (m.buckets * 2)
      omega
    · omega

theorem wflen_hashmap_grow (m : HashMap) (n : Nat) (h : WFlen m) :
    WFlen (hashmap_grow m n) := by
  unfold hashmap_grow
  split
  · exact h
  · rename_i hlt
    unfold WFlen at h ⊢
    simp only [reallocSlots, Nat.sub_self, initSlots, Option.getD_some,
      List.length_append, List.length_replicate]
    omega

theorem wflen_hashmap_grow_if_needed (m : HashMap) (h : WFlen m) :
    WFlen (hashmap_grow_if_needed m) := by
  unfold hashmap_grow_if_needed
  split
  · exact wflen_hashmap_grow m 8 h
  · split
    · exact wflen_hashmap_grow m _ h
    · exact h

theorem wfnodup_hashmap_grow (m : HashMap) (n : Nat) (h : WFnodup m) :
    WFnodup (hashmap_grow m n) := by
  unfold hashmap_grow
  split
  · exact h
  · unfold WFnodup at h ⊢
    simp only [reallocSlots, Nat.sub_self, initSlots, Option.getD_some]
    intro s hs
    rcases List.mem_append.mp hs with hs1 | hs2
    · exact h s hs1
    · have : s = none := List.eq_of_mem_replicate hs2
      subst this
      simp [slotKeys]

theorem wfnodup_hashmap_grow_if_needed (m : HashMap) (h : WFnodup m) :
    WFnodup (hashmap_grow_if_needed m) := by
  unfold hashmap_grow_if_needed
  split
  · exact wfnodup_hashmap_grow m 8 h
  · split
    · exact wfnodup_hashmap_grow m _ h
    · exact h

theorem allKeys_hashmap_grow (m : HashMap) (n : Nat) :
    allKeys (hashmap_grow m n) = allKeys m := by
  unfold hashmap_grow
  split
  · rfl
  · unfold allKeys
    simp only [reallocSlots, Nat.sub_self, initSlots, Option.getD_some]
    rw [slotsKeys_append, slotsKeys_replicate_none, List.append_nil]

theorem allKeys_hashmap_grow_if_needed (m : HashMap) :
    allKeys (hashmap_grow_if_needed m) = allKeys m := by
  unfold hashmap_grow_if_needed
  split
  · exact allKeys_hashmap_grow m 8
  · split
    · exact allKeys_hashmap_grow m _
    · rfl

theorem grow_if_needed_entries_of_wflen (m : HashMap) (h : WFlen m) :
    ∃ slots, (hashmap_grow_if_needed m).entries = some slots := by
  unfold hashmap_grow_if_needed
  split
  · rename_i h0
    rw [hashmap_grow_eq m 8 (by omega)]
    exact ⟨_, rfl⟩
  · rename_i h0
    split
    · rw [hashmap_grow_eq m (m.buckets * 2) (by omega)]
      exact ⟨_, rfl⟩
    · rcases he : m.entries with _ | slots
      · unfold WFlen at h
        rw [he] at h
        simp at h
        omega
      · exact ⟨slots, rfl⟩

/-! Hash key independence from everything but the secret. -/

theorem hashmap_hash_key_congr (m1 m2 : HashMap) (key : Option Key)
    (h : m1.key = m2.key) : hashmap_hash_key m1 key = hashmap_hash_key m2 key := by
  cases key <;> simp [hashmap_hash_key, h]

/-! Forward evaluation lemmas: one lemma per defined control path. -/

theorem insertCore_eval {m : HashMap} {slots : Slots} {k : Key} {v : Nat}
    {chain : List Entry} (he : m.entries = some slots) (hb0 : ¬ m.buckets = 0)
    (hsb : slots[hashmap_hash_key m (some k) % m.buckets]? = some (some chain)) :
    insertCore m (some k) v =
      some ((chainInsert chain k v).1,
        some { m with entries := some (slots.set
          (hashmap_hash_key m (some k) % m.buckets) (some (chainInsert chain k v).2)) }) := by
  simp only [insertCore, he, if_neg hb0, hsb]

theorem get_eval (m : HashMap) (slots : Slots) (k : Key) (chain : List Entry)
    (he : m.entries = some slots) (hb0 : ¬ m.buckets = 0)
    (hsb : slots[hashmap_hash_key m (some k) % m.buckets]? = some (some chain)) :
    hashmap_get (some m) (some k) = some (chainFind chain k, some m) := by
  simp only [hashmap_get, he, if_neg hb0, hsb]

theorem remove_eval_found {m : HashMap} {slots : Slots} {k : Key}
    {chain : List Entry} {v : Nat} {c2 : List Entry}
    (he : m.entries = some slots) (hb0 : ¬ m.buckets = 0)
    (hsb : slots[hashmap_hash_key m (some k) % m.buckets]? = some (some chain))
    (hrem : chainRemove chain k = some (v, c2)) :
    hashmap_remove (some m) (some k) =
      some (some v, some { m with entries := some (slots.set
        (hashmap_hash_key m (some k) % m.buckets) (some c2)) }) := by
  simp only [hashmap_remove, he, if_neg hb0, hsb, hrem]

theorem remove_eval_absent {m : HashMap} {slots : Slots} {k : Key}
    {chain : List Entry}
    (he : m.entries = some slots) (hb0 : ¬ m.buckets = 0)
    (hsb : slots[hashmap_hash_key m (some k) % m.buckets]? = some (some chain))
    (hrem : chainRemove chain k = none) :
    hashmap_remove (some m) (some k) = some (none, some m) := by
  simp only [hashmap_remove, he, if_neg hb0, hsb, hrem]

/-! Elimination lemmas for defined operation results. -/

theorem insert_some_elim {t : HashMap} {k : Key} {v : Nat} {r : Option Nat}
    {mt1 : Option HashMap} (hwf : WFlen t)
    (h : hashmap_insert (some t) (some k) v = some (r, mt1)) :
    ∃ slots chain,
      (hashmap_grow_if_needed t).entries = some slots ∧
      slots[hashmap_hash_key (hashmap_grow_if_needed t) (some k) %
        (hashmap_grow_if_needed t).buckets]? = some (some chain) ∧
      r = (chainInsert chain k v).1 ∧
      mt1 = some { hashmap_grow_if_needed t with
        entries := some (slots.set
          (hashmap_hash_key (hashmap_grow_if_needed t) (some k) %
            (hashmap_grow_if_needed t).buckets)
          (some (chainInsert chain k v).2)) } := by
  obtain (⟨slots, he⟩) := grow_if_needed_entries_of_wflen t hwf
  have hb0 : ¬ (hashmap_grow_if_needed t).buckets = 0 :=
    Nat.pos_iff_ne_zero.mp (hashmap_grow_if_needed_buckets_pos t)
  simp only [hashmap_insert, insertCore, he, if_neg hb0] at h
  rcases hsb : slots[hashmap_hash_key (hashmap_grow_if_needed t) (some k) %
      (hashmap_grow_if_needed t).buckets]? with _ | s
  · rw [hsb] at h
    simp at h
  · rcases s with _ | chain
    · rw [hsb] at h
      simp at h
    · rw [hsb] at h
      simp only [Option.some.injEq, Prod.mk.injEq] at h
      exact ⟨slots, chain, he, hsb, h.1.symm, h.2.symm⟩

theorem insert_then_get_core {t : HashMap} {k : Key} {v : Nat} {r : Option Nat}
    {mt1 : Option HashMap} (hwf : WFlen t)
    (h : hashmap_insert (some t) (some k) v = some (r, mt1)) :
    hashmap_get mt1 (some k) = some (some v, mt1) := by
  obtain ⟨slots, chain, he, hsb, hr, hmt⟩ := insert_some_elim hwf h
  have hb0 : ¬ (hashmap_grow_if_needed t).buckets = 0 :=
    Nat.pos_iff_ne_zero.mp (hashmap_grow_if_needed_buckets_pos t)
  have hlt : hashmap_hash_key (hashmap_grow_if_needed t) (some k) %
      (hashmap_grow_if_needed t).buckets < slots.length :=
    (List.getElem?_eq_some.mp hsb).1
  subst hmt
  have hget := get_eval
    { hashmap_grow_if_needed t with
      entries := some (slots.set
        (hashmap_hash_key (hashmap_grow_if_needed t) (some k) %
          (hashmap_grow_if_needed t).buckets)
        (some (chainInsert chain k v).2)) }
    (slots.set
      (hashmap_hash_key (hashmap_grow_if_needed t) (some k) %
        (hashmap_grow_if_needed t).buckets)
      (some (chainInsert chain k v).2))
    k (chainInsert chain k v).2 rfl hb0 ?_
  · rw [hget, chainFind_chainInsert]
  · show (slots.set
        (hashmap_hash_key (hashmap_grow_if_needed t) (some k) %
          (hashmap_grow_if_needed t).buckets)
        (some (chainInsert chain k v).2))[hashmap_hash_key (hashmap_grow_if_needed t) (some k) %
          (hashmap_grow_if_needed t).buckets]? = some (some (chainInsert chain k v).2)
    exact List.getElem?_set_eq_of_lt _ hlt

theorem get_state {mt : Option HashMap} {key : Option Key} {r : Option Nat}
    {mt2 : Option HashMap} (h : hashmap_get mt key = some (r, mt2)) : mt2 = mt := by
  rcases mt with _ | m
  · simp only [hashmap_get, Option.some.injEq, Prod.mk.injEq] at h
    exact h.2.symm
  · simp only [hashmap_get] at h
    split at h
    · simp only [Option.some.injEq, Prod.mk.injEq] at h
      exact h.2.symm
    · split at h
      · simp at h
      · split at h
        · simp at h
        · simp at h
        · split at h
          · simp only [Option.some.injEq, Prod.mk.injEq] at h
            exact h.2.symm
          · simp at h
        · simp only [Option.some.injEq, Prod.mk.injEq] at h
          exact h.2.symm

theorem insert_some_shape {t : HashMap} {key : Option Key} {v : Nat} {r : Option Nat}
    {mt1 : Option HashMap} (h : hashmap_insert (some t) key v = some (r, mt1)) :
    ∃ t1, mt1 = some t1 ∧ t1.len = (hashmap_grow_if_needed t).len ∧
      t1.buckets = (hashmap_grow_if_needed t).buckets ∧
      t1.key = (hashmap_grow_if_needed t).key := by
  simp only [hashmap_insert, insertCore] at h
  split at h
  · simp only [Option.some.injEq, Prod.mk.injEq] at h
    exact ⟨hashmap_grow_if_needed t, h.2.symm, rfl, rfl, rfl⟩
  · split at h
    · simp at h
    · split at h
      · simp at h
      · simp at h
      · simp at h
      · simp only [Option.some.injEq, Prod.mk.injEq] at h
        exact ⟨_, h.2.symm, rfl, rfl, rfl⟩

theorem remove_some_shape {t : HashMap} {key : Option Key} {r : Option Nat}
    {mt1 : Option HashMap} (h : hashmap_remove (some t) key = some (r, mt1)) :
    ∃ t1, mt1 = some t1 ∧ t1.len = t.len ∧ t1.buckets = t.buckets ∧
      t1.key = t.key := by
  simp only [hashmap_remove] at h
  split at h
  · simp only [Option.some.injEq, Prod.mk.injEq] at h
    exact ⟨t, h.2.symm, rfl, rfl, rfl⟩
  · split at h
    · simp at h
    · split at h
      · simp at h
      · simp at h
      · split at h
        · simp only [Option.some.injEq, Prod.mk.injEq] at h
          exact ⟨t, h.2.symm, rfl, rfl, rfl⟩
        · simp at h
      · split at h
        · simp only [Option.some.injEq, Prod.mk.injEq] at h
          exact ⟨t, h.2.symm, rfl, rfl, rfl⟩
        · simp only [Option.some.injEq, Prod.mk.injEq] at h
          exact ⟨_, h.2.symm, rfl, rfl, rfl⟩

theorem wflen_insert {t : HashMap} {key : Option Key} {v : Nat} {r : Option Nat}
    {mt1 : Option HashMap} (hwf : WFlen t)
    (h : hashmap_insert (some t) key v = some (r, mt1)) :
    ∀ t1, mt1 = some t1 → WFlen t1 := by
  intro t1 hmt
  subst hmt
  have hg : WFlen (hashmap_grow_if_needed t) := wflen_hashmap_grow_if_needed t hwf
  simp only [hashmap_insert, insertCore] at h
  split at h
  case h_1 heq =>
    simp only [Option.some.injEq, Prod.mk.injEq] at h
    rw [← h.2]
    exact hg
  case h_2 slots heq =>
    split at h
    · simp at h
    · split at h
      · simp at h
      · simp at h
      · simp at h
      · simp only [Option.some.injEq, Prod.mk.injEq] at h
        rw [← h.2]
        unfold WFlen at hg ⊢
        simp only [Option.getD_some, List.length_set]
        rw [heq] at hg
        simpa using hg


/-! Lookups after the growth check read the chains of the original table. -/

theorem grow_if_slot_lookup {m : HashMap} (hwf : WFlen m) (hb : ¬ m.buckets = 0)
    {H : Nat} {c : List Entry}
    (h : ((hashmap_grow_if_needed m).entries.getD
      [])[H % (hashmap_grow_if_needed m).buckets]? = some (some c)) :
    (m.entries.getD [])[H % m.buckets]? = some (some c) := by
  unfold hashmap_grow_if_needed at h
  rw [if_neg hb] at h
  by_cases hl : m.len * 4 ≥ m.buckets * 3
  · rw [if_pos hl, hashmap_grow_eq m (m.buckets * 2) (by omega)] at h
    simp only [Option.getD_some] at h
    unfold WFlen at hwf
    have hlen2 : H % (m.buckets * 2) <
        (m.entries.getD []).length +
          (m.buckets * 2 - (m.entries.getD []).length) := by
      have hx := (List.getElem?_eq_some.mp h).1
      simpa using hx
    have hmod2 : H % (m.buckets * 2) < m.buckets * 2 := Nat.mod_lt _ (by omega)
    by_cases hcase : H % (m.buckets * 2) < m.buckets
    · rw [List.getElem?_append_left
        (by omega : H % (m.buckets * 2) < (m.entries.getD []).length)] at h
      have hmm : H % m.buckets = H % (m.buckets * 2) := by
        rw [← Nat.mod_mod_of_dvd H (⟨2, rfl⟩ : m.buckets ∣ m.buckets * 2)]
        exact Nat.mod_eq_of_lt hcase
      rw [hmm]
      exact h
    · rw [List.getElem?_append_right
        (by omega : (m.entries.getD []).length ≤ H % (m.buckets * 2))] at h
      rw [List.getElem?_replicate] at h
      rw [if_pos (by omega)] at h
      simp at h
  · rw [if_neg hl] at h
    exact h

/-! Growth policy facts when the stored length is zero. -/

theorem grow_if_id_of_len_zero (m : HashMap) (h0 : m.len = 0)
    (hb : m.buckets ≠ 0) : hashmap_grow_if_needed m = m := by
  unfold hashmap_grow_if_needed
  rw [if_neg hb, if_neg (by omega)]

theorem grow_if_new_eq (secret : List Nat) :
    hashmap_grow_if_needed (hashmap_new secret) =
      { len := 0, buckets := 8, key := secret,
        entries := some (List.replicate 8 (none : Slot)) } := rfl

theorem grow_if_buckets_of_len_zero (m : HashMap) (h0 : m.len = 0) :
    (hashmap_grow_if_needed m).buckets =
      if m.buckets = 0 then 8 else m.buckets := by
  by_cases hb : m.buckets = 0
  · rw [if_pos hb]
    unfold hashmap_grow_if_needed
    rw [if_pos hb, hashmap_grow_eq m 8 (by omega)]
  · rw [if_neg hb, grow_if_id_of_len_zero m h0 hb]

/-! Determinism of executions. -/

theorem run_deterministic {s : Option HashMap} {ops : List Op}
    {r1 r2 : Option HashMap} (h1 : Run s ops r1) (h2 : Run s ops r2) :
    r1 = r2 := by
  induction h1 generalizing r2 with
  | done s => cases h2 with | done => rfl
  | ins hstep hrun ih =>
    cases h2 with
    | ins hstep2 hrun2 =>
      rw [hstep] at hstep2
      simp only [Option.some.injEq, Prod.mk.injEq] at hstep2
      exact ih (hstep2.2 ▸ hrun2)
  | del hstep hrun ih =>
    cases h2 with
    | del hstep2 hrun2 =>
      rw [hstep] at hstep2
      simp only [Option.some.injEq, Prod.mk.injEq] at hstep2
      exact ih (hstep2.2 ▸ hrun2)
  | query hstep hrun ih =>
    cases h2 with
    | query hstep2 hrun2 =>
      rw [hstep] at hstep2
      simp only [Option.some.injEq, Prod.mk.injEq] at hstep2
      exact ih (hstep2.2 ▸ hrun2)

/-!
Claim theorems. Each theorem settles one claim of the specification against
the embedded code.
-/

/-- C1. The claim says that after a sequence of inserts with pairwise distinct
keys into a fresh table, hashmap_len returns the number of distinct keys
inserted. The code never increments the len field: this theorem evaluates a
successful insert of one fresh key into an empty 8 bucket table and shows that
hashmap_len still returns 0, refuting the claim (on a hashmap_new table the
very first insert additionally reads an uninitialized slot, see C2). -/
theorem c1_len_never_incremented :
    hashmap_insert (some (hashmap_with_buckets 8 (List.replicate 16 0)))
        (some [97]) 5 =
      some (none, some
        { len := 0, buckets := 8, key := List.replicate 16 0,
          entries := some [some [], some [], some [], some [], some [],
            some [{ key := [97], value := 5 }], some [], some []] }) ∧
    hashmap_len
        { len := 0, buckets := 8, key := List.replicate 16 0,
          entries := some [some [], some [], some [], some [], some [],
            some [{ key := [97], value := 5 }], some [], some []] } = 0 :=
  ⟨rfl, rfl⟩

/-- C2. The claim says that whenever the bucket storage grows, every
previously unused slot is initialized to the empty chain. In hashmap_grow the
assignment of new_buckets to map.buckets happens before the initialization
loop, so the loop runs zero times: after the growth from 0 to 8 performed by
the first insert every slot still holds indeterminate realloc memory (a none
slot, not the empty chain some []), and after a growth from 4 to 8 the four
new slots are indeterminate while the four existing slots are preserved. -/
theorem c2_grow_skips_initialization :
    hashmap_grow_if_needed (hashmap_new (List.replicate 16 0)) =
      { len := 0, buckets := 8, key := List.replicate 16 0,
        entries := some (List.replicate 8 (none : Slot)) } ∧
    hashmap_grow (hashmap_with_buckets 4 (List.replicate 16 0)) 8 =
      { len := 0, buckets := 8, key := List.replicate 16 0,
        entries := some [some [], some [], some [], some [],
          none, none, none, none] } :=
  ⟨rfl, rfl⟩

/-- C3. The claim says insert, get and remove are state preserving no-ops
returning the none result when the table or the key is NULL. get and remove do
guard both cases that reach them, but hashmap_insert dereferences a NULL map
(map.entries is read right after the growth check) and with a NULL key it
reaches strcmp or strdup on NULL: both are undefined behavior, refuting the
claim for insert. -/
theorem c3_insert_null_args_ub :
    hashmap_insert none (some [97]) 5 = none ∧
    hashmap_insert (some (hashmap_with_buckets 8 (List.replicate 16 0)))
      none 5 = none ∧
    hashmap_get none (some [97]) = some (none, none) ∧
    hashmap_remove none (some [97]) = some (none, none) :=
  ⟨rfl, rfl, rfl, rfl⟩

/-- C4. Insert followed by get on the same key returns exactly the inserted
value: whenever an insert of key k with value v on a table satisfying the
length representation invariant returns a defined result, a get of k on the
resulting table returns v (as the identical pointer value) and leaves the
handle unchanged. -/
theorem c4_insert_then_get (t : HashMap) (k : Key) (v : Nat) (r : Option Nat)
    (mt1 : Option HashMap) (hwf : WFlen t)
    (h : hashmap_insert (some t) (some k) v = some (r, mt1)) :
    hashmap_get mt1 (some k) = some (some v, mt1) :=
  insert_then_get_core hwf h

theorem c4_witness :
    WFlen (hashmap_with_buckets 8 (List.replicate 16 0)) ∧
    hashmap_insert (some (hashmap_with_buckets 8 (List.replicate 16 0)))
        (some [97]) 5 =
      some (none, some
        { len := 0, buckets := 8, key := List.replicate 16 0,
          entries := some [some [], some [], some [], some [], some [],
            some [{ key := [97], value := 5 }], some [], some []] }) ∧
    hashmap_get (some
        { len := 0, buckets := 8, key := List.replicate 16 0,
          entries := some [some [], some [], some [], some [], some [],
            some [{ key := [97], value := 5 }], some [], some []] })
        (some [97]) =
      some (some 5, some
        { len := 0, buckets := 8, key := List.replicate 16 0,
          entries := some [some [], some [], some [], some [], some [],
            some [{ key := [97], value := 5 }], some [], some []] }) := by
  refine ⟨rfl, rfl, ?_⟩
  exact c4_insert_then_get (hashmap_with_buckets 8 (List.replicate 16 0))
    [97] 5 none _ rfl rfl

/-- C8. get is a pure read: whenever hashmap_get returns a defined result, the
table handle it hands back is exactly the input handle, so the count, the
bucket count, the secret and every chain are unchanged and the growth policy
is never run (the translation of hashmap_get contains no call to the growth
functions and no write to the table). -/
theorem c8_get_pure (mt : Option HashMap) (key : Option Key) (r : Option Nat)
    (mt2 : Option HashMap) (h : hashmap_get mt key = some (r, mt2)) :
    mt2 = mt :=
  get_state h

theorem c8_witness :
    hashmap_get (some (hashmap_with_buckets 8 (List.replicate 16 0)))
        (some [97]) =
      some (none, some (hashmap_with_buckets 8 (List.replicate 16 0))) ∧
    (some (hashmap_with_buckets 8 (List.replicate 16 0)) : Option HashMap) =
      some (hashmap_with_buckets 8 (List.replicate 16 0)) := by
  refine ⟨rfl, ?_⟩
  exact c8_get_pure (some (hashmap_with_buckets 8 (List.replicate 16 0)))
    (some [97]) none _ rfl

/-- C7. The len field is 0 at construction and no operation or growth step
ever modifies it; consequently the load factor doubling branch of
hashmap_grow_if_needed never fires once buckets is non zero (its condition
len * 4 >= buckets * 3 is false when len = 0 and buckets > 0), and a table
created by hashmap_new moves to exactly 8 buckets at the growth step of the
first insert and keeps exactly 8 buckets across every further defined insert
or remove. -/
theorem c7_len_zero_and_eight_buckets :
    (∀ secret, (hashmap_new secret).len = 0) ∧
    (∀ m n, (hashmap_grow m n).len = m.len) ∧
    (∀ m, (hashmap_grow_if_needed m).len = m.len) ∧
    (∀ m, m.len = 0 → m.buckets ≠ 0 → hashmap_grow_if_needed m = m) ∧
    (∀ secret, hashmap_grow_if_needed (hashmap_new secret) =
      { len := 0, buckets := 8, key := secret,
        entries := some (List.replicate 8 (none : Slot)) }) ∧
    (∀ t key v r mt1 t1, hashmap_insert (some t) key v = some (r, mt1) →
      mt1 = some t1 →
      t1.len = t.len ∧
        (t.len = 0 → t1.buckets = if t.buckets = 0 then 8 else t.buckets)) ∧
    (∀ t key r mt1 t1, hashmap_remove (some t) key = some (r, mt1) →
      mt1 = some t1 → t1.len = t.len ∧ t1.buckets = t.buckets) := by
  refine ⟨fun _ => rfl, hashmap_grow_len, hashmap_grow_if_needed_len,
    grow_if_id_of_len_zero, grow_if_new_eq, ?_, ?_⟩
  · intro t key v r mt1 t1 h hmt
    obtain ⟨t1x, hmtx, hlen, hbuck, _⟩ := insert_some_shape h
    rw [hmt] at hmtx
    obtain rfl := Option.some.inj hmtx
    refine ⟨hlen.trans (hashmap_grow_if_needed_len t), fun h0 => ?_⟩
    rw [hbuck, grow_if_buckets_of_len_zero t h0]
  · intro t key r mt1 t1 h hmt
    obtain ⟨t1x, hmtx, hlen, hbuck, _⟩ := remove_some_shape h
    rw [hmt] at hmtx
    obtain rfl := Option.some.inj hmtx
    exact ⟨hlen, hbuck⟩

theorem c7_witness :
    (hashmap_new (List.replicate 16 0)).len = 0 ∧
    (hashmap_grow (hashmap_with_buckets 8 (List.replicate 16 0)) 16).len =
      (hashmap_with_buckets 8 (List.replicate 16 0)).len ∧
    (hashmap_grow_if_needed (hashmap_with_buckets 8 (List.replicate 16 0))).len =
      (hashmap_with_buckets 8 (List.replicate 16 0)).len ∧
    hashmap_grow_if_needed (hashmap_with_buckets 8 (List.replicate 16 0)) =
      hashmap_with_buckets 8 (List.replicate 16 0) ∧
    hashmap_grow_if_needed (hashmap_new (List.replicate 16 0)) =
      { len := 0, buckets := 8, key := List.replicate 16 0,
        entries := some (List.replicate 8 (none : Slot)) } ∧
    ({ len := 0, buckets := 8, key := List.replicate 16 0,
        entries := some [some [], some [], some [], some [], some [],
          some [{ key := [97], value := 5 }], some [], some []] } : HashMap).len =
      (hashmap_with_buckets 8 (List.replicate 16 0)).len ∧
    ({ len := 0, buckets := 8, key := List.replicate 16 0,
        entries := some [some [], some [], some [], some [], some [],
          some [{ key := [97], value := 5 }], some [], some []] } : HashMap).buckets =
      (if (hashmap_with_buckets 8 (List.replicate 16 0)).buckets = 0 then 8
       else (hashmap_with_buckets 8 (List.replicate 16 0)).buckets) ∧
    (hashmap_with_buckets 8 (List.replicate 16 0)).len =
      (hashmap_with_buckets 8 (List.replicate 16 0)).len ∧
    (hashmap_with_buckets 8 (List.replicate 16 0)).buckets =
      (hashmap_with_buckets 8 (List.replicate 16 0)).buckets := by
  have hins := (c7_len_zero_and_eight_buckets.2.2.2.2.2.1
    (hashmap_with_buckets 8 (List.replicate 16 0)) (some [97]) 5 none
    (some
      { len := 0, buckets := 8, key := List.replicate 16 0,
        entries := some [some [], some [], some [], some [], some [],
          some [{ key := [97], value := 5 }], some [], some []] })
    { len := 0, buckets := 8, key := List.replicate 16 0,
      entries := some [some [], some [], some [], some [], some [],
        some [{ key := [97], value := 5 }], some [], some []] } rfl rfl)
  have hrem := (c7_len_zero_and_eight_buckets.2.2.2.2.2.2
    (hashmap_with_buckets 8 (List.replicate 16 0)) (some [98]) none
    (some (hashmap_with_buckets 8 (List.replicate 16 0)))
    (hashmap_with_buckets 8 (List.replicate 16 0)) rfl rfl)
  exact ⟨c7_len_zero_and_eight_buckets.1 (List.replicate 16 0),
    c7_len_zero_and_eight_buckets.2.1 (hashmap_with_buckets 8 (List.replicate 16 0)) 16,
    c7_len_zero_and_eight_buckets.2.2.1 (hashmap_with_buckets 8 (List.replicate 16 0)),
    c7_len_zero_and_eight_buckets.2.2.2.1 (hashmap_with_buckets 8 (List.replicate 16 0))
      rfl (by decide),
    c7_len_zero_and_eight_buckets.2.2.2.2.1 (List.replicate 16 0),
    hins.1, hins.2 rfl, hrem.1, hrem.2⟩

/-- C9. The bucket count never decreases: every defined insert, get or remove
leaves the bucket count greater than or equal to what it was; and a table
satisfying the length representation invariant with 0 buckets stores no
entries at all, so bucket count 0 implies count 0. -/
theorem c9_buckets_monotone :
    (∀ t key v r mt1 t1, hashmap_insert (some t) key v = some (r, mt1) →
      mt1 = some t1 → t.buckets ≤ t1.buckets) ∧
    (∀ t key r mt1 t1, hashmap_remove (some t) key = some (r, mt1) →
      mt1 = some t1 → t.buckets ≤ t1.buckets) ∧
    (∀ t key r mt1 t1, hashmap_get (some t) key = some (r, mt1) →
      mt1 = some t1 → t.buckets ≤ t1.buckets) ∧
    (∀ t, WFlen t → t.buckets = 0 → totalEntries t = 0) := by
  refine ⟨?_, ?_, ?_, ?_⟩
  · intro t key v r mt1 t1 h hmt
    obtain ⟨t1x, hmtx, _, hbuck, _⟩ := insert_some_shape h
    rw [hmt] at hmtx
    obtain rfl := Option.some.inj hmtx
    rw [hbuck]
    exact hashmap_grow_if_needed_buckets_le t
  · intro t key r mt1 t1 h hmt
    obtain ⟨t1x, hmtx, _, hbuck, _⟩ := remove_some_shape h
    rw [hmt] at hmtx
    obtain rfl := Option.some.inj hmtx
    exact Nat.le_of_eq hbuck.symm
  · intro t key r mt1 t1 h hmt
    have hst := get_state h
    rw [hmt] at hst
    obtain rfl := Option.some.inj hst.symm
    exact Nat.le_refl _
  · intro t hwf hb
    unfold WFlen at hwf
    rw [hb] at hwf
    unfold totalEntries
    rw [List.length_eq_zero.mp hwf]
    rfl

theorem c9_witness :
    (hashmap_with_buckets 8 (List.replicate 16 0)).buckets ≤
      ({ len := 0, buckets := 8, key := List.replicate 16 0,
         entries := some [some [], some [], some [], some [], some [],
           some [{ key := [97], value := 5 }], some [], some []] } : HashMap).buckets ∧
    (hashmap_with_buckets 8 (List.replicate 16 0)).buckets ≤
      (hashmap_with_buckets 8 (List.replicate 16 0)).buckets ∧
    (hashmap_with_buckets 8 (List.replicate 16 0)).buckets ≤
      (hashmap_with_buckets 8 (List.replicate 16 0)).buckets ∧
    totalEntries (hashmap_new (List.replicate 16 0)) = 0 := by
  refine ⟨?_, ?_, ?_, ?_⟩
  · exact c9_buckets_monotone.1 (hashmap_with_buckets 8 (List.replicate 16 0))
      (some [97]) 5 none _ _ rfl rfl
  · exact c9_buckets_monotone.2.1 (hashmap_with_buckets 8 (List.replicate 16 0))
      (some [98]) none _ _ rfl rfl
  · exact c9_buckets_monotone.2.2.1 (hashmap_with_buckets 8 (List.replicate 16 0))
      (some [98]) none _ _ rfl rfl
  · exact c9_buckets_monotone.2.2.2 (hashmap_new (List.replicate 16 0)) rfl rfl

/-- C10. Determinism: for a fixed secret and a fixed operation sequence, any
two undefined-behavior-free executions from a fresh table end in the same
state, so get returns the same result for every key in both runs; and the
digest a table computes for a key depends only on the key bytes and the 16
byte secret, not on any other part of the table. -/
theorem c10_deterministic :
    (∀ (secret : List Nat) (ops : List Op) (res1 res2 : Option HashMap),
      Run (some (hashmap_new secret)) ops res1 →
      Run (some (hashmap_new secret)) ops res2 →
      ∀ key, hashmap_get res1 key = hashmap_get res2 key) ∧
    (∀ (m1 m2 : HashMap) (key : Option Key), m1.key = m2.key →
      hashmap_hash_key m1 key = hashmap_hash_key m2 key) := by
  refine ⟨?_, hashmap_hash_key_congr⟩
  intro secret ops res1 res2 h1 h2 key
  rw [run_deterministic h1 h2]

theorem c10_witness :
    Run (some (hashmap_new (List.replicate 16 0))) [Op.query (some [97])]
      (some (hashmap_new (List.replicate 16 0))) ∧
    hashmap_get (some (hashmap_new (List.replicate 16 0))) (some [98]) =
      hashmap_get (some (hashmap_new (List.replicate 16 0))) (some [98]) ∧
    hashmap_hash_key (hashmap_new (List.replicate 16 0)) (some [97]) =
      hashmap_hash_key (hashmap_with_buckets 3 (List.replicate 16 0))
        (some [97]) := by
  have hr : Run (some (hashmap_new (List.replicate 16 0)))
      [Op.query (some [97])] (some (hashmap_new (List.replicate 16 0))) :=
    Run.query rfl (Run.done _)
  exact ⟨hr,
    c10_deterministic.1 (List.replicate 16 0) [Op.query (some [97])] _ _ hr hr
      (some [98]),
    c10_deterministic.2 (hashmap_new (List.replicate 16 0))
      (hashmap_with_buckets 3 (List.replicate 16 0)) (some [97]) rfl⟩

/-- C5. Re-insert replaces: on a table satisfying the length representation
invariant, if an insert of key k with value v1 returns a defined result and a
second insert of k with value v2 on the resulting table also returns a defined
result, then the second insert returns v1, a subsequent get of k yields v2,
and the stored keys of the table are unchanged by the second insert: the
existing chain node is reused (no second node for k) and its key copy is
untouched. -/
theorem c5_reinsert_replaces (t t1 t2 : HashMap) (k : Key) (v1 v2 : Nat)
    (r1 r2 : Option Nat) (hwf : WFlen t)
    (h1 : hashmap_insert (some t) (some k) v1 = some (r1, some t1))
    (h2 : hashmap_insert (some t1) (some k) v2 = some (r2, some t2)) :
    r2 = some v1 ∧
    hashmap_get (some t2) (some k) = some (some v2, some t2) ∧
    allKeys t2 = allKeys t1 := by
  obtain ⟨slots1, chain0, he1, hsb1, hr1x, hmt1⟩ := insert_some_elim hwf h1
  obtain rfl := Option.some.inj hmt1
  have hwf1 := wflen_insert hwf h1 _ rfl
  have hbne : ¬ (hashmap_grow_if_needed t).buckets = 0 :=
    Nat.pos_iff_ne_zero.mp (hashmap_grow_if_needed_buckets_pos t)
  have hlt1 : hashmap_hash_key (hashmap_grow_if_needed t) (some k) %
      (hashmap_grow_if_needed t).buckets < slots1.length :=
    (List.getElem?_eq_some.mp hsb1).1
  obtain ⟨slots2, chain2, he2, hsb2, hr2x, hmt2⟩ := insert_some_elim hwf1 h2
  obtain rfl := Option.some.inj hmt2
  -- The chain the second insert walks is the chain the first insert wrote.
  have hpre : ((hashmap_grow_if_needed { hashmap_grow_if_needed t with
      entries := some (slots1.set
        (hashmap_hash_key (hashmap_grow_if_needed t) (some k) %
          (hashmap_grow_if_needed t).buckets)
        (some (chainInsert chain0 k v1).2)) }).entries.getD
      [])[hashmap_hash_key (hashmap_grow_if_needed { hashmap_grow_if_needed t with
        entries := some (slots1.set
          (hashmap_hash_key (hashmap_grow_if_needed t) (some k) %
            (hashmap_grow_if_needed t).buckets)
          (some (chainInsert chain0 k v1).2)) }) (some k) %
      (hashmap_grow_if_needed { hashmap_grow_if_needed t with
        entries := some (slots1.set
          (hashmap_hash_key (hashmap_grow_if_needed t) (some k) %
            (hashmap_grow_if_needed t).buckets)
          (some (chainInsert chain0 k v1).2)) }).buckets]? = some (some chain2) := by
    simp only [he2, Option.getD_some]
    exact hsb2
  have hlook := grow_if_slot_lookup hwf1 hbne hpre
  have hHeq : hashmap_hash_key (hashmap_grow_if_needed
      { hashmap_grow_if_needed t with
        entries := some (slots1.set
          (hashmap_hash_key (hashmap_grow_if_needed t) (some k) %
            (hashmap_grow_if_needed t).buckets)
          (some (chainInsert chain0 k v1).2)) }) (some k) =
      hashmap_hash_key (hashmap_grow_if_needed t) (some k) := by
    refine hashmap_hash_key_congr _ _ _ ?_
    rw [hashmap_grow_if_needed_key]
  rw [hHeq] at hlook
  have hself : (slots1.set
      (hashmap_hash_key (hashmap_grow_if_needed t) (some k) %
        (hashmap_grow_if_needed t).buckets)
      (some (chainInsert chain0 k v1).2))[hashmap_hash_key
        (hashmap_grow_if_needed t) (some k) %
        (hashmap_grow_if_needed t).buckets]? =
      some (some (chainInsert chain0 k v1).2) :=
    List.getElem?_set_eq_of_lt _ hlt1
  have hlook2 : (slots1.set
      (hashmap_hash_key (hashmap_grow_if_needed t) (some k) %
        (hashmap_grow_if_needed t).buckets)
      (some (chainInsert chain0 k v1).2))[hashmap_hash_key
        (hashmap_grow_if_needed t) (some k) %
        (hashmap_grow_if_needed t).buckets]? = some (some chain2) := hlook
  have hchain : chain2 = (chainInsert chain0 k v1).2 := by
    have hx := (hself.symm.trans hlook2)
    exact (Option.some.inj (Option.some.inj hx)).symm
  subst hchain
  have hfind1 : chainFind (chainInsert chain0 k v1).2 k = some v1 :=
    chainFind_chainInsert chain0 k v1
  refine ⟨?_, insert_then_get_core hwf1 h2, ?_⟩
  · rw [hr2x, chainInsert_fst]
    exact hfind1
  · have hkeys : slotKeys (some (chainInsert (chainInsert chain0 k v1).2 k v2).2) =
        slotKeys (some (chainInsert chain0 k v1).2) := by
      unfold slotKeys
      simp only [Option.getD_some]
      exact chainInsert_keys_of_found _ _ _ _ hfind1
    calc allKeys { hashmap_grow_if_needed { hashmap_grow_if_needed t with
          entries := some (slots1.set
            (hashmap_hash_key (hashmap_grow_if_needed t) (some k) %
              (hashmap_grow_if_needed t).buckets)
            (some (chainInsert chain0 k v1).2)) } with
          entries := some (slots2.set
            (hashmap_hash_key (hashmap_grow_if_needed
              { hashmap_grow_if_needed t with
                entries := some (slots1.set
                  (hashmap_hash_key (hashmap_grow_if_needed t) (some k) %
                    (hashmap_grow_if_needed t).buckets)
                  (some (chainInsert chain0 k v1).2)) }) (some k) %
              (hashmap_grow_if_needed { hashmap_grow_if_needed t with
                entries := some (slots1.set
                  (hashmap_hash_key (hashmap_grow_if_needed t) (some k) %
                    (hashmap_grow_if_needed t).buckets)
                  (some (chainInsert chain0 k v1).2)) }).buckets)
            (some (chainInsert (chainInsert chain0 k v1).2 k v2).2)) } =
        slotsKeys (slots2.set
          (hashmap_hash_key (hashmap_grow_if_needed
            { hashmap_grow_if_needed t with
              entries := some (slots1.set
                (hashmap_hash_key (hashmap_grow_if_needed t) (some k) %
                  (hashmap_grow_if_needed t).buckets)
                (some (chainInsert chain0 k v1).2)) }) (some k) %
            (hashmap_grow_if_needed { hashmap_grow_if_needed t with
              entries := some (slots1.set
                (hashmap_hash_key (hashmap_grow_if_needed t) (some k) %
                  (hashmap_grow_if_needed t).buckets)
                (some (chainInsert chain0 k v1).2)) }).buckets)
          (some (chainInsert (chainInsert chain0 k v1).2 k v2).2)) := by
          unfold allKeys
          simp only [Option.getD_some]
      _ = slotsKeys slots2 :=
          slotsKeys_set_of_same _ _ _ _ hsb2 hkeys
      _ = allKeys (hashmap_grow_if_needed { hashmap_grow_if_needed t with
            entries := some (slots1.set
              (hashmap_hash_key (hashmap_grow_if_needed t) (some k) %
                (hashmap_grow_if_needed t).buckets)
              (some (chainInsert chain0 k v1).2)) }) := by
          unfold allKeys
          rw [he2]
          rfl
      _ = allKeys { hashmap_grow_if_needed t with
            entries := some (slots1.set
              (hashmap_hash_key (hashmap_grow_if_needed t) (some k) %
                (hashmap_grow_if_needed t).buckets)
              (some (chainInsert chain0 k v1).2)) } :=
          allKeys_hashmap_grow_if_needed _

theorem c5_witness :
    WFlen (hashmap_with_buckets 8 (List.replicate 16 0)) ∧
    hashmap_insert (some (hashmap_with_buckets 8 (List.replicate 16 0)))
        (some [97]) 5 =
      some (none, some
        { len := 0, buckets := 8, key := List.replicate 16 0,
          entries := some [some [], some [], some [], some [], some [],
            some [{ key := [97], value := 5 }], some [], some []] }) ∧
    hashmap_insert (some
        { len := 0, buckets := 8, key := List.replicate 16 0,
          entries := some [some [], some [], some [], some [], some [],
            some [{ key := [97], value := 5 }], some [], some []] })
        (some [97]) 7 =
      some (some 5, some
        { len := 0, buckets := 8, key := List.replicate 16 0,
          entries := some [some [], some [], some [], some [], some [],
            some [{ key := [97], value := 7 }], some [], some []] }) ∧
    hashmap_get (some
        { len := 0, buckets := 8, key := List.replicate 16 0,
          entries := some [some [], some [], some [], some [], some [],
            some [{ key := [97], value := 7 }], some [], some []] })
        (some [97]) =
      some (some 7, some
        { len := 0, buckets := 8, key := List.replicate 16 0,
          entries := some [some [], some [], some [], some [], some [],
            some [{ key := [97], value := 7 }], some [], some []] }) ∧
    allKeys
        { len := 0, buckets := 8, key := List.replicate 16 0,
          entries := some [some [], some [], some [], some [], some [],
            some [{ key := [97], value := 7 }], some [], some []] } =
      allKeys
        { len := 0, buckets := 8, key := List.replicate 16 0,
          entries := some [some [], some [], some [], some [], some [],
            some [{ key := [97], value := 5 }], some [], some []] } := by
  have hc := c5_reinsert_replaces (hashmap_with_buckets 8 (List.replicate 16 0))
    { len := 0, buckets := 8, key := List.replicate 16 0,
      entries := some [some [], some [], some [], some [], some [],
        some [{ key := [97], value := 5 }], some [], some []] }
    { len := 0, buckets := 8, key := List.replicate 16 0,
      entries := some [some [], some [], some [], some [], some [],
        some [{ key := [97], value := 7 }], some [], some []] }
    [97] 5 7 none (some 5) rfl rfl rfl
  exact ⟨rfl, rfl, rfl, hc.2.1, hc.2.2⟩

theorem remove_then_get_absent (m : HashMap) (slots : Slots) (k : Key)
    (chain : List Entry) (v : Nat) (c2 : List Entry)
    (he : m.entries = some slots) (hb0 : ¬ m.buckets = 0)
    (hsb : slots[hashmap_hash_key m (some k) % m.buckets]? = some (some chain))
    (hrem : chainRemove chain k = some (v, c2))
    (hfc2 : chainFind c2 k = none) :
    opEnsures (hashmap_remove (some m) (some k)) (fun rr mt2 =>
      rr = some v ∧ hashmap_get mt2 (some k) = some (none, mt2)) := by
  rw [remove_eval_found he hb0 hsb hrem]
  refine ⟨rfl, ?_⟩
  have hlt : hashmap_hash_key m (some k) % m.buckets < slots.length :=
    (List.getElem?_eq_some.mp hsb).1
  have hget := get_eval
    { m with entries := some (slots.set
      (hashmap_hash_key m (some k) % m.buckets) (some c2)) }
    (slots.set (hashmap_hash_key m (some k) % m.buckets) (some c2))
    k c2 rfl hb0 ?_
  · rw [hfc2] at hget
    exact hget
  · show (slots.set (hashmap_hash_key m (some k) % m.buckets)
        (some c2))[hashmap_hash_key m (some k) % m.buckets]? = some (some c2)
    refine List.getElem?_set_eq_of_lt _ ?_
    exact hlt

/-- C6. Remove round trips and absent keys: on a table satisfying both
representation invariants, after a defined insert of key k with value v a
remove of k returns a defined result carrying exactly v, and a get of k on the
table left behind reports the key absent; and whenever get reports a key
absent on some handle, remove of that key returns none and hands back the very
same handle, leaving the whole table state including the stored size
unchanged. -/
theorem c6_remove_roundtrip :
    (∀ (t t1 : HashMap) (k : Key) (v : Nat) (r : Option Nat),
      WF t →
      hashmap_insert (some t) (some k) v = some (r, some t1) →
      opEnsures (hashmap_remove (some t1) (some k)) (fun rr mt2 =>
        rr = some v ∧ hashmap_get mt2 (some k) = some (none, mt2))) ∧
    (∀ (mt : Option HashMap) (key : Option Key),
      hashmap_get mt key = some (none, mt) →
      hashmap_remove mt key = some (none, mt)) := by
  constructor
  · intro t t1 k v r hwf h1
    obtain ⟨slots1, chain0, he1, hsb1, hr1x, hmt1⟩ := insert_some_elim hwf.1 h1
    obtain rfl := Option.some.inj hmt1
    have hbne : ¬ (hashmap_grow_if_needed t).buckets = 0 :=
      Nat.pos_iff_ne_zero.mp (hashmap_grow_if_needed_buckets_pos t)
    have hlt1 : hashmap_hash_key (hashmap_grow_if_needed t) (some k) %
        (hashmap_grow_if_needed t).buckets < slots1.length :=
      (List.getElem?_eq_some.mp hsb1).1
    have hmem : (some chain0 : Slot) ∈ slots1 := by
      obtain ⟨hx1, hx2⟩ := List.getElem?_eq_some.mp hsb1
      exact hx2 ▸ List.getElem_mem hx1
    have hnd0 : (chain0.map Entry.key).Nodup := by
      have hh := wfnodup_hashmap_grow_if_needed t hwf.2
      unfold WFnodup at hh
      have hx := hh (some chain0) (by rw [he1]; exact hmem)
      simpa [slotKeys] using hx
    have hnd1 : ((chainInsert chain0 k v).2.map Entry.key).Nodup :=
      nodup_chainInsert chain0 k v hnd0
    have hfind1 : chainFind (chainInsert chain0 k v).2 k = some v :=
      chainFind_chainInsert chain0 k v
    obtain ⟨c2, hrem, hsub, hf⟩ := chainRemove_of_find _ _ _ hfind1
    have hfc2 : chainFind c2 k = none := hf hnd1
    have hremget := remove_then_get_absent
      { hashmap_grow_if_needed t with
        entries := some (slots1.set
          (hashmap_hash_key (hashmap_grow_if_needed t) (some k) %
            (hashmap_grow_if_needed t).buckets)
          (some (chainInsert chain0 k v).2)) }
      (slots1.set
        (hashmap_hash_key (hashmap_grow_if_needed t) (some k) %
          (hashmap_grow_if_needed t).buckets)
        (some (chainInsert chain0 k v).2))
      k (chainInsert chain0 k v).2 v c2
      rfl hbne ?_ hrem hfc2
    · exact hremget
    · show (slots1.set
        (hashmap_hash_key (hashmap_grow_if_needed t) (some k) %
          (hashmap_grow_if_needed t).buckets)
        (some (chainInsert chain0 k v).2))[hashmap_hash_key
          (hashmap_grow_if_needed t) (some k) %
          (hashmap_grow_if_needed t).buckets]? =
        some (some (chainInsert chain0 k v).2)
      exact List.getElem?_set_eq_of_lt _ hlt1
  · intro mt key h
    rcases mt with _ | m
    · rfl
    · rcases he : m.entries with _ | slots
      · simp [hashmap_remove, he]
      · by_cases hb0 : m.buckets = 0
        · simp [hashmap_get, he, hb0] at h
        · rcases hsb : slots[hashmap_hash_key m key % m.buckets]? with _ | s
          · simp [hashmap_get, he, hb0, hsb] at h
          · rcases s with _ | chain
            · simp [hashmap_get, he, hb0, hsb] at h
            · rcases key with _ | k
              · by_cases hemp : chain.isEmpty
                · simp [hashmap_remove, he, hb0, hsb, hemp]
                · simp [hashmap_get, he, hb0, hsb, hemp] at h
              · have hfind : chainFind chain k = none := by
                  simp only [hashmap_get, he, if_neg hb0, hsb,
                    Option.some.injEq, Prod.mk.injEq] at h
                  exact h.1
                simp [hashmap_remove, he, hb0, hsb,
                  chainRemove_eq_none chain k hfind]

theorem c6_witness :
    WF (hashmap_with_buckets 8 (List.replicate 16 0)) ∧
    hashmap_insert (some (hashmap_with_buckets 8 (List.replicate 16 0)))
        (some [97]) 5 =
      some (none, some
        { len := 0, buckets := 8, key := List.replicate 16 0,
          entries := some [some [], some [], some [], some [], some [],
            some [{ key := [97], value := 5 }], some [], some []] }) ∧
    opEnsures (hashmap_remove (some
        { len := 0, buckets := 8, key := List.replicate 16 0,
          entries := some [some [], some [], some [], some [], some [],
            some [{ key := [97], value := 5 }], some [], some []] })
        (some [97]))
      (fun rr mt2 => rr = some 5 ∧
        hashmap_get mt2 (some [97]) = some (none, mt2)) ∧
    hashmap_get (some (hashmap_with_buckets 8 (List.replicate 16 0)))
        (some [98]) =
      some (none, some (hashmap_with_buckets 8 (List.replicate 16 0))) ∧
    hashmap_remove (some (hashmap_with_buckets 8 (List.replicate 16 0)))
        (some [98]) =
      some (none, some (hashmap_with_buckets 8 (List.replicate 16 0))) := by
  have hwf : WF (hashmap_with_buckets 8 (List.replicate 16 0)) := by
    refine ⟨rfl, ?_⟩
    unfold WFnodup
    decide
  have hins : hashmap_insert (some (hashmap_with_buckets 8 (List.replicate 16 0)))
      (some [97]) 5 =
    some (none, some
      { len := 0, buckets := 8, key := List.replicate 16 0,
        entries := some [some [], some [], some [], some [], some [],
          some [{ key := [97], value := 5 }], some [], some []] }) := rfl
  have hget : hashmap_get (some (hashmap_with_buckets 8 (List.replicate 16 0)))
      (some [98]) =
    some (none, some (hashmap_with_buckets 8 (List.replicate 16 0))) := rfl
  exact ⟨hwf, hins,
    c6_remove_roundtrip.1 (hashmap_with_buckets 8 (List.replicate 16 0))
      { len := 0, buckets := 8, key := List.replicate 16 0,
        entries := some [some [], some [], some [], some [], some [],
          some [{ key := [97], value := 5 }], some [], some []] }
      [97] 5 none hwf hins,
    hget,
    c6_remove_roundtrip.2 (some (hashmap_with_buckets 8 (List.replicate 16 0)))
      (some [98]) hget⟩

end Bindgen
